import Mathlib

/-!
Shallow embedding of `src/app.py` (CSES Project Management, a Streamlit +
SQLite project/task tracker).  Rows of the SQLite tables become Lean
structures, the database becomes an explicit `DB` state, and each query
function of the source becomes a pure Lean function on that state:

* `add_company`, `get_companies_rows`   — src/app.py lines 115-130
* `add_employee`, `get_employees`       — lines 160-180
* `add_project`, `get_projects_by_company` — lines 185-215
* `recalc_project_progress`             — lines 218-239
* `insert_task`, `get_project_tasks`    — lines 244-290
* `toggle_task_completed`               — lines 293-308
* `get_employee_details`, `login_page`  — lines 379-422
* `active_tasks` completion-toggle step — lines 561-564
* `init_db` employee seeding            — lines 110-111

`datetime.now().strftime` is passed in as an explicit `today` string.
SQL `REAL` values are modelled as `ℚ`.  SQL `NULL` becomes `Option`.
SQL `ORDER BY` is modelled by a structural insertion sort (`sortBy`);
only stable-sort semantics matter to the properties proved below.
The `@lru_cache` memoization on `get_companies` is modelled explicitly by
a cache field in `AppState`: the cached read consults the cache first and
fills it on a miss, and `add_company` does not touch it, exactly as
`functools.lru_cache` behaves in the source.
-/

namespace CSES

/-- Row of the `companies` table: `id INTEGER PRIMARY KEY AUTOINCREMENT`,
`name TEXT UNIQUE NOT NULL` (src/app.py lines 26-31). -/
structure Company where
  id : Nat
  name : String
deriving DecidableEq, Repr

/-- Row of the `employees` table after the two `ALTER TABLE` migrations:
`id`, unique `name`, `active` (default 1), `role` (default `site`), `pin`
(nullable) (src/app.py lines 44-60). -/
structure Employee where
  id : Nat
  name : String
  active : Bool
  role : String
  pin : Option String
deriving DecidableEq, Repr

/-- Row of the `projects` table (src/app.py lines 63-76): note there is a
`progress REAL DEFAULT 0` column and an `archived INTEGER DEFAULT 0`
column, and no weight-related column. -/
structure Project where
  id : Nat
  company_id : Nat
  name : String
  description : String
  quote_number : String
  project_number : String
  representative_id : Nat
  owner_user : String
  progress : ℚ
  archived : Bool
deriving DecidableEq, Repr

/-- Row of the `tasks` table after the `comments`/`photo_path` migrations
(src/app.py lines 79-104): note there is no `weight` column. -/
structure Task where
  id : Nat
  project_id : Nat
  area : String
  equipment : String
  kw : ℚ
  main_task : String
  sub_task : String
  assigned_to : Option Nat
  due_date : Option String
  completed : Bool
  completed_date : Option String
  archived : Bool
  comments : String
  photo_path : String
deriving DecidableEq, Repr

/-- The whole SQLite database: one list per table, plus the AUTOINCREMENT
counter of each table (SQLite starts these at 1). -/
structure DB where
  companies : List Company
  employees : List Employee
  projects : List Project
  tasks : List Task
  next_company_id : Nat
  next_employee_id : Nat
  next_project_id : Nat
  next_task_id : Nat
deriving DecidableEq, Repr

/-- The empty freshly-initialised database (all tables empty, all
AUTOINCREMENT counters at 1). -/
def emptyDB : DB :=
  { companies := [], employees := [], projects := [], tasks := []
    next_company_id := 1, next_employee_id := 1
    next_project_id := 1, next_task_id := 1 }

/-- Insert an element into a `le`-sorted list, keeping it sorted. -/
def insertSorted {α : Type} (le : α → α → Bool) (a : α) : List α → List α
  | [] => [a]
  | b :: l => if le a b then a :: b :: l else b :: insertSorted le a l

/-- Structural insertion sort, the model of SQL `ORDER BY`. -/
def sortBy {α : Type} (le : α → α → Bool) : List α → List α
  | [] => []
  | a :: l => insertSorted le a (sortBy le l)

/-- Boolean comparison used for `ORDER BY name`. -/
def nameLe (a b : String) : Bool := decide (a ≤ b)

/-- SQLite three-valued equality `x = y` on nullable integer columns,
collapsed to the `Bool` a `WHERE` clause sees: `NULL = anything` is not
true. -/
def sqlEqNat : Option Nat → Option Nat → Bool
  | some a, some b => a == b
  | _, _ => false

/-- `ORDER BY t.due_date` comparison on a nullable text column: SQLite
sorts `NULL`s first in ascending order. -/
def dueLe : Option String → Option String → Bool
  | none, _ => true
  | some _, none => false
  | some a, some b => decide (a ≤ b)

/-- `add_company(name)` (src/app.py lines 115-120):
`INSERT OR IGNORE INTO companies (name) VALUES (?)` — the `name` column
is `UNIQUE`, so a duplicate name leaves the table untouched. -/
def add_company (db : DB) (name : String) : DB :=
  if db.companies.any (fun c => c.name == name) then db
  else
    { db with
      companies := db.companies ++ [{ id := db.next_company_id, name := name }]
      next_company_id := db.next_company_id + 1 }

/-- The underlying query of `get_companies()` (src/app.py lines 123-130):
`SELECT id, name FROM companies ORDER BY name`. -/
def get_companies_rows (db : DB) : List (Nat × String) :=
  (sortBy (fun a b => nameLe a.name b.name) db.companies).map (fun c => (c.id, c.name))

/-- Application state seen by the Streamlit process: the database plus the
`lru_cache` memo of `get_companies` (src/app.py line 123).  `get_companies`
takes no argument, so its cache is a single optional entry. -/
structure AppState where
  db : DB
  companies_cache : Option (List (Nat × String))
deriving DecidableEq, Repr

/-- `get_companies()` with its `@lru_cache(maxsize=32)` decorator
(src/app.py lines 123-130): a warm cache is returned as-is, a cold cache
is filled from the database. -/
def get_companies (s : AppState) : List (Nat × String) × AppState :=
  match s.companies_cache with
  | some rows => (rows, s)
  | none =>
    let rows := get_companies_rows s.db
    (rows, { s with companies_cache := some rows })

/-- `add_company` as it acts on the application state: it writes to the
database and does nothing to the `get_companies` cache (there is no
invalidation call anywhere in src/app.py). -/
def app_add_company (s : AppState) (name : String) : AppState :=
  { s with db := add_company s.db name }

/-- `add_employee(name, role='site', pin=None)` (src/app.py lines
160-168): `INSERT OR IGNORE INTO employees (name, role, pin)` — `name` is
`UNIQUE`, so inserting an existing name is a silent no-op; a fresh name is
inserted with `active` defaulting to 1. -/
def add_employee (db : DB) (name : String) (role : String) (pin : Option String) : DB :=
  if db.employees.any (fun e => e.name == name) then db
  else
    { db with
      employees := db.employees ++
        [{ id := db.next_employee_id, name := name, active := true, role := role, pin := pin }]
      next_employee_id := db.next_employee_id + 1 }

/-- `get_employees()` (src/app.py lines 171-180):
`SELECT id, name, role, pin FROM employees WHERE active=1 ORDER BY name`;
the rows are modelled as the employee records themselves. -/
def get_employees (db : DB) : List Employee :=
  sortBy (fun a b => nameLe a.name b.name) (db.employees.filter (fun e => e.active))

/-- The employee-seeding step at the end of `init_db()` (src/app.py lines
109-111): seed the two management employees with hardcoded PINs. -/
def init_db_seed (db : DB) : DB :=
  add_employee (add_employee db "Jaco Kotze" "management" (some "1234"))
    "Craig Brooks" "management" (some "5678")

/-- `add_project(...)` (src/app.py lines 185-200): a plain `INSERT INTO
projects` of the seven supplied columns; `progress` and `archived` take
their schema defaults.  No check of any kind is made on `company_id`. -/
def add_project (db : DB) (company_id : Nat)
    (name description quote_number project_number : String)
    (representative_id : Nat) (owner_user : String) : DB :=
  { db with
    projects := db.projects ++
      [{ id := db.next_project_id, company_id := company_id, name := name
         description := description, quote_number := quote_number
         project_number := project_number, representative_id := representative_id
         owner_user := owner_user, progress := 0, archived := false }]
    next_project_id := db.next_project_id + 1 }

/-- The underlying query of `get_projects_by_company(company_id)`
(src/app.py lines 203-215): `SELECT id, name, progress, owner_user FROM
projects WHERE company_id=? AND archived=0 ORDER BY name`.  There is no
condition on `progress`. -/
def get_projects_by_company (db : DB) (company_id : Nat) :
    List (Nat × String × ℚ × String) :=
  (sortBy (fun a b => nameLe a.name b.name)
      (db.projects.filter (fun p => p.company_id == company_id && !p.archived))).map
    (fun p => (p.id, p.name, p.progress, p.owner_user))

/-- The progress value computed by `recalc_project_progress` (src/app.py
lines 222-231) from the project's non-archived task rows:
`SELECT COUNT(*), SUM(completed)` gives `total` and `done`
(`done or 0` guards the `NULL` sum of an empty selection), then
`progress = 0; if total and total > 0: progress = done / total * 100`. -/
def code_progress (ts : List Task) : ℚ :=
  let total := ts.length
  let done := (ts.filter (fun t => t.completed)).length
  if 0 < total then (done : ℚ) / (total : ℚ) * 100 else 0

/-- `recalc_project_progress(project_id)` (src/app.py lines 218-239):
compute `code_progress` over the project's non-archived tasks and persist
it with `UPDATE projects SET progress=? WHERE id=?`. -/
def recalc_project_progress (db : DB) (project_id : Nat) : DB :=
  { db with
    projects := db.projects.map (fun p =>
      if p.id == project_id then
        { p with progress :=
            code_progress (db.tasks.filter
              (fun t => t.project_id == project_id && !t.archived)) }
      else p) }

/-- `insert_task(...)` (src/app.py lines 244-259): a plain `INSERT INTO
tasks` of the ten supplied columns; `completed`, `completed_date` and
`archived` take their schema defaults.  No check of any kind is made on
`assigned_to`. -/
def insert_task (db : DB) (project_id : Nat) (area equipment : String) (kw : ℚ)
    (main_task sub_task : String) (assigned_to : Option Nat)
    (due_date : Option String) (comments photo_path : String) : DB :=
  { db with
    tasks := db.tasks ++
      [{ id := db.next_task_id, project_id := project_id, area := area
         equipment := equipment, kw := kw, main_task := main_task
         sub_task := sub_task, assigned_to := assigned_to, due_date := due_date
         completed := false, completed_date := none, archived := false
         comments := comments, photo_path := photo_path }]
    next_task_id := db.next_task_id + 1 }

/-- The `LEFT JOIN employees e ON t.assigned_to = e.id` column
`e.name AS assigned_to` of `get_project_tasks`: the matched employee's
name, or `NULL` when the task is unassigned or the id matches no
employee (`id` is the primary key, so `find?` models the join). -/
def taskAssigneeName (db : DB) (t : Task) : Option String :=
  match t.assigned_to with
  | some a => (db.employees.find? (fun e => e.id == a)).map (fun e => e.name)
  | none => none

/-- `get_project_tasks(project_id, user_id=None, is_management=False)`
(src/app.py lines 262-290): select the project's non-archived task rows,
left-joined with the assignee's name; when the caller is not management
the clause `AND t.assigned_to = ?` (with `user_id` as the parameter) is
appended; the result is ordered by `t.due_date`. -/
def get_project_tasks (db : DB) (project_id : Nat) (user_id : Option Nat)
    ( is_management : Bool) : List (Task × Option String) :=
  let base := db.tasks.filter (fun t => t.project_id == project_id && !t.archived)
  let filtered :=
    if is_management then base
    else base.filter (fun t => sqlEqNat t.assigned_to user_id)
  (sortBy (fun a b => dueLe a.due_date b.due_date) filtered).map
    (fun t => (t, taskAssigneeName db t))

/-- `toggle_task_completed(task_id, completed)` (src/app.py lines
293-308): `completed_date` is the current date when `completed` is truthy
and `NULL` otherwise, then `UPDATE tasks SET completed=?, completed_date=?
WHERE id=?`.  The current date `datetime.now().strftime("%Y-%m-%d")` is
passed in as `today`. -/
def toggle_task_completed (db : DB) (task_id : Nat) (completed : Bool)
    (today : String) : DB :=
  { db with
    tasks := db.tasks.map (fun t =>
      if t.id == task_id then
        { t with completed := completed
                 completed_date := if completed then some today else none }
      else t) }

/-- The completion-toggle step of the `active_tasks` view (src/app.py
lines 561-564) and of the `my_tasks` view (lines 605-608): when the
checkbox changes, the view calls `toggle_task_completed(tid, completed)`
and reruns the page.  Neither view calls `recalc_project_progress`. -/
def active_tasks_toggle (db : DB) (task_id : Nat) (completed : Bool)
    (today : String) : DB :=
  toggle_task_completed db task_id completed today

/-- `get_employee_details(name)` (src/app.py lines 379-384): scan the rows
of `get_employees()` for the first with this name; the Python triple
`(eid, role, pin)` / `(None, None, None)` is modelled as an optional
employee record. -/
def get_employee_details (db : DB) (name : String) : Option Employee :=
  (get_employees db).find? (fun e => e.name == name)

/-- The credential check of `login_page()` (src/app.py lines 402-422): the
`Login` button requires `user and pin` truthy (both non-empty), looks up
`get_employee_details(user)` and succeeds — returning the employee id and
role into the session — exactly when `pin == stored_pin`.  A missing
employee gives `stored_pin = None`, which a (non-empty) string never
equals. -/
def login_page (db : DB) (user pin : String) : Option (Nat × String) :=
  if user = "" || pin = "" then none
  else
    match get_employee_details db user with
    | none => none
    | some e => if e.pin == some pin then some (e.id, e.role) else none

/-! Concrete example states used by the counterexample and witness
theorems below. -/

/-- A project of company 1 as `add_project` would create it. -/
def exProject1 : Project :=
  { id := 1, company_id := 1, name := "P1", description := "", quote_number := "Q1"
    project_number := "PN1", representative_id := 0, owner_user := "Jaco Kotze"
    progress := 0, archived := false }

/-- A completed task of project 1. -/
def exTask1 : Task :=
  { id := 1, project_id := 1, area := "Plant Room", equipment := "Pump 1", kw := 0
    main_task := "Pump", sub_task := "Install Motor", assigned_to := some 1
    due_date := some "2026-01-01", completed := true
    completed_date := some "2025-12-01", archived := false
    comments := "", photo_path := "" }

/-- A not-completed task of project 1. -/
def exTask2 : Task := { exTask1 with id := 2, completed := false, completed_date := none }

/-- The spec's scenario database: company `Acme`, project `P1` with a
completed task and a not-completed task. -/
def exdb1 : DB :=
  { emptyDB with companies := [{ id := 1, name := "Acme" }]
                 projects := [exProject1], tasks := [exTask1, exTask2]
                 next_company_id := 2, next_project_id := 2, next_task_id := 3 }

/-- A database with project 1 (stored progress 0) and a single
not-completed task. -/
def exdb2 : DB :=
  { emptyDB with projects := [exProject1], tasks := [exTask2]
                 next_project_id := 2, next_task_id := 3 }

/-- A site employee and a task assigned to them, for exercising the
role-filtered task query. -/
def exdb3 : DB :=
  { emptyDB with
      employees := [{ id := 5, name := "Piet Pompies", active := true
                      role := "site", pin := some "0000" }]
      tasks := [{ exTask1 with assigned_to := some 5 }]
      next_employee_id := 6, next_task_id := 2 }

/-- The initial application state: fresh database, cold cache. -/
def s0 : AppState := { db := emptyDB, companies_cache := none }

/-- A non-archived project whose stored progress is already 100. -/
def exdb5 : DB :=
  { emptyDB with projects := [{ exProject1 with progress := 100 }]
                 next_project_id := 2 }

/-- The seeded management employee of the login scenario. -/
def exEmpJaco : Employee :=
  { id := 1, name := "Jaco Kotze", active := true, role := "management"
    pin := some "1234" }

/-- A database holding only the seeded management employee. -/
def exdbLogin : DB := { emptyDB with employees := [exEmpJaco], next_employee_id := 2 }

/-- An active employee whose stored PIN is the empty string. -/
def exdb6e : DB :=
  { emptyDB with
      employees := [{ id := 1, name := "Eve", active := true, role := "site"
                      pin := some "" }]
      next_employee_id := 2 }

/-- A project with no tasks at all. -/
def exdbNoTasks : DB :=
  { emptyDB with projects := [exProject1], next_project_id := 2 }

/-- Modelled from the spec (section 4.1): the weighted progress formula
`progress = 100 * Σ(weight_i * completed_i) / Σ(weight_i)` over pairs of a
task's weight and completed flag, defined as 0 when the task set is empty
or the total weight is zero.  The source schema has no weight column; this
definition exists only to compare the spec's formula with the code. -/
def specWeightedProgress (ws : List (ℚ × Bool)) : ℚ :=
  let den := (ws.map (fun wc => wc.1)).sum
  let num := (ws.map (fun wc => wc.1 * (if wc.2 then 1 else 0))).sum
  if den = 0 then 0 else 100 * num / den

/-! Basic lemmas about the `ORDER BY` model: sorting changes neither
membership nor (being a permutation) any pairwise-distinctness facts. -/

theorem mem_insertSorted {α : Type} {le : α → α → Bool} {a b : α} {l : List α} :
    a ∈ insertSorted le b l ↔ a = b ∨ a ∈ l := by
  induction l with
  | nil => simp [insertSorted]
  | cons c l ih =>
    by_cases h : le b c
    · simp [insertSorted, h]
    · simp [insertSorted, h, ih]
      tauto

theorem mem_sortBy {α : Type} {le : α → α → Bool} {a : α} {l : List α} :
    a ∈ sortBy le l ↔ a ∈ l := by
  induction l with
  | nil => simp [sortBy]
  | cons b l ih => simp [sortBy, mem_insertSorted, ih]

theorem perm_insertSorted {α : Type} (le : α → α → Bool) (a : α) (l : List α) :
    List.Perm (insertSorted le a l) (a :: l) := by
  induction l with
  | nil => simp [insertSorted]
  | cons b l ih =>
    by_cases h : le a b
    · simp [insertSorted, h]
    · simp only [insertSorted, h, Bool.false_eq_true, if_false]
      exact (ih.cons b).trans (List.Perm.swap a b l)

theorem perm_sortBy {α : Type} (le : α → α → Bool) (l : List α) :
    List.Perm (sortBy le l) l := by
  induction l with
  | nil => exact List.Perm.refl _
  | cons a l ih => exact (perm_insertSorted le a (sortBy le l)).trans (ih.cons a)

/-- Total weight of the unit-weight pairing of a task list is its length. -/
theorem unit_weights_den (ts : List Task) :
    ((ts.map (fun t => ((1 : ℚ), t.completed))).map (fun wc => wc.1)).sum
      = (ts.length : ℚ) := by
  induction ts with
  | nil => simp
  | cons t ts ih =>
    simp only [List.map_cons, List.sum_cons, ih, List.length_cons]
    push_cast
    ring

/-- Weighted completed sum of the unit-weight pairing of a task list is
its completed count. -/
theorem unit_weights_num (ts : List Task) :
    ((ts.map (fun t => ((1 : ℚ), t.completed))).map
        (fun wc => wc.1 * (if wc.2 then 1 else 0))).sum
      = ((ts.filter (fun t => t.completed)).length : ℚ) := by
  induction ts with
  | nil => simp
  | cons t ts ih =>
    by_cases h : t.completed <;>
      simp only [List.map_cons, List.sum_cons, ih, List.filter_cons, h,
        List.length_cons, ite_true, ite_false] <;>
      push_cast <;> ring

/-- The code's count-based progress is exactly the spec's weighted formula
with every weight taken to be 1. -/
theorem code_progress_eq_unit_weights (ts : List Task) :
    code_progress ts = specWeightedProgress (ts.map (fun t => ((1 : ℚ), t.completed))) := by
  simp only [code_progress, specWeightedProgress, unit_weights_den, unit_weights_num]
  by_cases h : ts.length = 0
  · simp [h]
  · have h1 : 0 < ts.length := Nat.pos_of_ne_zero h
    have h2 : (ts.length : ℚ) ≠ 0 := by exact_mod_cast h
    rw [if_pos h1, if_neg h2]
    ring

/-- Claim C1, counterexample: on the spec's own scenario — project `P1`
with a completed task `T1` and a not-completed task `T2` —
`recalc_project_progress` persists 50, not the `100*2/3 ≈ 66.67` the
claim's weighted formula with weights `(2, 1)` demands: the schema has no
weight column and the code divides the completed count by the task
count. -/
theorem recalc_project_progress_not_weighted_cex :
    ((recalc_project_progress exdb1 1).projects.map (fun p => p.progress) = [50]) ∧
    specWeightedProgress [((2 : ℚ), true), ((1 : ℚ), false)] = 200 / 3 ∧
    (50 : ℚ) ≠ 200 / 3 := by
  refine ⟨?_, ?_, by norm_num⟩
  · simp [recalc_project_progress, code_progress, exdb1, exProject1, exTask1, exTask2]
    norm_num
  · simp [specWeightedProgress]
    norm_num

/-- Claim C1, amended: `recalc_project_progress(project_id)` persists onto
every project row with that id the value of the spec's weighted formula
applied with every weight equal to 1 — i.e. `100 * (completed count) /
(task count)` over the project's non-archived tasks — because the tasks
table has no weight column; on the scenario `T1` completed, `T2` not, the
persisted progress is 50. -/
theorem recalc_project_progress_is_unit_weighted (db : DB) (pid : Nat) :
    (recalc_project_progress db pid).projects =
      db.projects.map (fun p =>
        if p.id == pid then
          { p with progress := specWeightedProgress ((db.tasks.filter (fun t => t.project_id == pid && !t.archived)).map (fun t => ((1 : ℚ), t.completed))) }
        else p) := by
  simp only [recalc_project_progress, code_progress_eq_unit_weights]

/-- Claim C8 (confirmed): for a project whose non-archived task set is
empty, `recalc_project_progress` takes the guarded branch (`total` is 0,
so no division happens — the model is a total function, so nothing can be
raised) and persists progress exactly 0. -/
theorem recalc_project_progress_empty (db : DB) (pid : Nat)
    (h : db.tasks.filter (fun t => t.project_id == pid && !t.archived) = []) :
    (recalc_project_progress db pid).projects =
      db.projects.map (fun p => if p.id == pid then { p with progress := 0 } else p) := by
  simp only [recalc_project_progress, h, code_progress, List.length_nil,
    List.filter_nil, Nat.lt_irrefl, ite_false]

/-- Witness for claim C8: a concrete project with no tasks at all; its
filtered task set is empty and recomputation stores progress 0. -/
theorem recalc_project_progress_empty_witness :
    (exdbNoTasks.tasks.filter (fun t => t.project_id == 1 && !t.archived) = []) ∧
    (recalc_project_progress exdbNoTasks 1).projects =
      exdbNoTasks.projects.map (fun p => if p.id == 1 then { p with progress := 0 } else p) :=
  ⟨rfl, recalc_project_progress_empty exdbNoTasks 1 rfl⟩

/-- Claim C2, code bug: the completion-toggle step of the task views calls
`toggle_task_completed` only — no `recalc_project_progress` — so the
stored progress goes stale.  Concretely: project 1 has stored progress 0
and a single not-completed task; after the view toggles the task to
completed, the stored progress is still 0, while the progress formula
over the project's current non-archived tasks — and the code's own
recomputation, had it been invoked — gives 100. -/
theorem toggle_leaves_progress_stale_cex :
    ((active_tasks_toggle exdb2 2 true "2026-10-12").projects.map (fun p => p.progress) = [0]) ∧
    code_progress ((active_tasks_toggle exdb2 2 true "2026-10-12").tasks.filter
      (fun t => t.project_id == 1 && !t.archived)) = 100 ∧
    ((recalc_project_progress (active_tasks_toggle exdb2 2 true "2026-10-12") 1).projects.map
      (fun p => p.progress) = [100]) ∧
    (0 : ℚ) ≠ 100 := by
  refine ⟨rfl, ?_, ?_, by norm_num⟩
  · simp [active_tasks_toggle, toggle_task_completed, code_progress, exdb2, exProject1,
      exTask1, exTask2]
  · simp [active_tasks_toggle, toggle_task_completed, recalc_project_progress,
      code_progress, exdb2, exProject1, exTask1, exTask2]

/-- Claim C4, code bug: `get_companies` is memoized by `lru_cache` and
`add_company` performs no invalidation, so a read after a write is stale.
Concretely: from a fresh state, `get_companies()` caches the empty table;
`add_company("Acme")` then inserts the row into the database; the next
`get_companies()` still returns the cached empty list, with no row named
`Acme` in sight. -/
theorem get_companies_stale_after_add_cex :
    (get_companies s0).1 = [] ∧
    (app_add_company (get_companies s0).2 "Acme").db.companies = [{ id := 1, name := "Acme" }] ∧
    (get_companies (app_add_company (get_companies s0).2 "Acme")).1 = [] :=
  ⟨rfl, rfl, rfl⟩

/-- Claim C5, counterexample: `get_projects_by_company` filters only on
`company_id` and `archived=0`; a non-archived project whose stored
progress is 100 is still returned, so the listing is not "exactly the
projects that are not archived AND have progress < 100". -/
theorem full_progress_project_still_listed_cex :
    get_projects_by_company exdb5 1 = [(1, "P1", 100, "Jaco Kotze")] ∧
    ¬((100 : ℚ) < 100) :=
  ⟨rfl, by norm_num⟩

/-- Claim C5, amended: for every company and database state, the listing
`get_projects_by_company` returns exactly the rows of that company's
non-archived projects — stored progress is not consulted, so a project
whose progress has reached 100 (but is not archived) is still listed. -/
theorem get_projects_by_company_iff (db : DB) (cid i : Nat) (n : String) (pr : ℚ)
    (ow : String) :
    (i, n, pr, ow) ∈ get_projects_by_company db cid ↔
      ∃ p ∈ db.projects, p.company_id = cid ∧ p.archived = false ∧
        p.id = i ∧ p.name = n ∧ p.progress = pr ∧ p.owner_user = ow := by
  simp only [get_projects_by_company, List.mem_map, mem_sortBy, List.mem_filter,
    Bool.and_eq_true, beq_iff_eq, Bool.not_eq_true', Prod.mk.injEq]
  constructor
  · rintro ⟨p, ⟨hp, hc, ha⟩, hi, hn, hpr, how⟩
    exact ⟨p, hp, hc, ha, hi, hn, hpr, how⟩
  · rintro ⟨p, hp, hc, ha, hi, hn, hpr, how⟩
    exact ⟨p, ⟨hp, hc, ha⟩, hi, hn, hpr, how⟩

/-- Claim C7, counterexample: on an empty database (no companies, no
employees), `add_project` with `company_id = 99` inserts the project row
anyway, and `insert_task` with `assigned_to = 7` inserts the task row
anyway — neither create operation is rejected, no foreign key is
checked. -/
theorem add_project_no_fk_check_cex :
    emptyDB.companies = [] ∧
    (add_project emptyDB 99 "P" "" "" "" 0 "own").projects =
      [{ id := 1, company_id := 99, name := "P", description := "", quote_number := ""
         project_number := "", representative_id := 0, owner_user := "own"
         progress := 0, archived := false }] ∧
    emptyDB.employees = [] ∧
    ((insert_task emptyDB 1 "" "" 0 "" "" (some 7) none "" "").tasks.map
      (fun t => t.assigned_to) = [some 7]) :=
  ⟨rfl, rfl, rfl, rfl⟩

/-- Claim C7, amended: `add_project` and `insert_task` validate no foreign
keys: even when no company row has the given `company_id` and no employee
row has the given `assigned_to` id, both operations insert their row
unconditionally (the table grows by one and the new row carries the
dangling reference). -/
theorem create_ops_insert_without_fk_check (db : DB) (cid : Nat)
    (n d q pnum : String) (rid : Nat) (ow : String)
    (pid : Nat) (ar eqp : String) (kw : ℚ) (mt sbt : String) (asg : Nat)
    (dd : Option String) (cm ph : String)
    (hc : ∀ c ∈ db.companies, c.id ≠ cid)
    (he : ∀ e ∈ db.employees, e.id ≠ asg) :
    (add_project db cid n d q pnum rid ow).projects.length = db.projects.length + 1 ∧
    (∃ p ∈ (add_project db cid n d q pnum rid ow).projects, p.company_id = cid) ∧
    (insert_task db pid ar eqp kw mt sbt (some asg) dd cm ph).tasks.length
      = db.tasks.length + 1 ∧
    (∃ t ∈ (insert_task db pid ar eqp kw mt sbt (some asg) dd cm ph).tasks,
      t.assigned_to = some asg) := by
  refine ⟨by simp [add_project], ?_, by simp [insert_task], ?_⟩
  · exact ⟨{ id := db.next_project_id, company_id := cid, name := n, description := d, quote_number := q, project_number := pnum, representative_id := rid, owner_user := ow, progress := 0, archived := false }, by simp [add_project], rfl⟩
  · exact ⟨{ id := db.next_task_id, project_id := pid, area := ar, equipment := eqp, kw := kw, main_task := mt, sub_task := sbt, assigned_to := some asg, due_date := dd, completed := false, completed_date := none, archived := false, comments := cm, photo_path := ph }, by simp [insert_task], rfl⟩

/-- Witness for claim C7: the empty database has no company 99 and no
employee 7, yet both inserts still append their row. -/
theorem create_ops_insert_without_fk_check_witness :
    (∀ c ∈ emptyDB.companies, c.id ≠ 99) ∧ (∀ e ∈ emptyDB.employees, e.id ≠ 7) ∧
    ((add_project emptyDB 99 "P" "" "" "" 0 "own").projects.length
        = emptyDB.projects.length + 1 ∧
      (∃ p ∈ (add_project emptyDB 99 "P" "" "" "" 0 "own").projects, p.company_id = 99) ∧
      (insert_task emptyDB 1 "" "" 0 "" "" (some 7) none "" "").tasks.length
        = emptyDB.tasks.length + 1 ∧
      (∃ t ∈ (insert_task emptyDB 1 "" "" 0 "" "" (some 7) none "" "").tasks,
        t.assigned_to = some 7)) :=
  ⟨by simp [emptyDB], by simp [emptyDB],
    create_ops_insert_without_fk_check emptyDB 99 "P" "" "" "" 0 "own" 1 "" "" 0 "" "" 7
      none "" "" (by simp [emptyDB]) (by simp [emptyDB])⟩

/-- Claim C9 (confirmed): `toggle_task_completed(task_id, True)` updates
every task row with that id to completed with `completed_date` set to the
current date (`today`), `toggle_task_completed(task_id, False)` updates it
to not completed with `completed_date` cleared to unset, and rows with a
different id are untouched. -/
theorem toggle_task_completed_dates (db : DB) (tid : Nat) (today : String) :
    (∀ t ∈ db.tasks, t.id = tid →
      { t with completed := true, completed_date := some today } ∈
        (toggle_task_completed db tid true today).tasks) ∧
    (∀ t ∈ db.tasks, t.id = tid →
      { t with completed := false, completed_date := none } ∈
        (toggle_task_completed db tid false today).tasks) ∧
    (∀ c : Bool, ∀ t ∈ db.tasks, t.id ≠ tid →
      t ∈ (toggle_task_completed db tid c today).tasks) := by
  refine ⟨?_, ?_, ?_⟩
  · intro t ht h
    simp only [toggle_task_completed, List.mem_map]
    exact ⟨t, ht, by simp [h]⟩
  · intro t ht h
    simp only [toggle_task_completed, List.mem_map]
    exact ⟨t, ht, by simp [h]⟩
  · intro c t ht h
    simp only [toggle_task_completed, List.mem_map]
    exact ⟨t, ht, by simp [h]⟩

/-- Witness for claim C9: toggling task 2 of the scenario database to
completed stores today's date on it; toggling task 1 to not completed
clears the date. -/
theorem toggle_task_completed_dates_witness :
    (exTask2 ∈ exdb1.tasks ∧ exTask2.id = 2 ∧
      { exTask2 with completed := true, completed_date := some "2026-10-12" } ∈
        (toggle_task_completed exdb1 2 true "2026-10-12").tasks) ∧
    (exTask1 ∈ exdb1.tasks ∧ exTask1.id = 1 ∧
      { exTask1 with completed := false, completed_date := none } ∈
        (toggle_task_completed exdb1 1 false "2026-10-12").tasks) :=
  ⟨⟨by simp [exdb1], rfl,
      (toggle_task_completed_dates exdb1 2 "2026-10-12").1 exTask2 (by simp [exdb1]) rfl⟩,
    ⟨by simp [exdb1], rfl,
      (toggle_task_completed_dates exdb1 1 "2026-10-12").2.1 exTask1 (by simp [exdb1]) rfl⟩⟩

/-- Inserting an employee name that is already present is a no-op:
`INSERT OR IGNORE` plus the `UNIQUE` name column leave the table — and
the whole database — unchanged. -/
theorem add_employee_noop_of_mem (db : DB) (name role : String) (pin : Option String)
    (h : ∃ e ∈ db.employees, e.name = name) :
    add_employee db name role pin = db := by
  unfold add_employee
  rw [if_pos]
  obtain ⟨e, he, hn⟩ := h
  exact List.any_eq_true.mpr ⟨e, he, by simp [hn]⟩

/-- `add_employee` always leaves the table containing an employee with the
given name (either it was already there or it was just inserted). -/
theorem add_employee_mem_name (db : DB) (name role : String) (pin : Option String) :
    ∃ e ∈ (add_employee db name role pin).employees, e.name = name := by
  unfold add_employee
  by_cases h : db.employees.any (fun e => e.name == name)
  · rw [if_pos h]
    obtain ⟨e, he, hn⟩ := List.any_eq_true.mp h
    exact ⟨e, he, by simpa using hn⟩
  · rw [if_neg h]
    exact ⟨{ id := db.next_employee_id, name := name, active := true, role := role, pin := pin }, by simp, rfl⟩

/-- `add_employee` never removes rows: any existing employee row survives
the insert. -/
theorem add_employee_mem_mono (db : DB) (name role : String) (pin : Option String)
    {e : Employee} (he : e ∈ db.employees) :
    e ∈ (add_employee db name role pin).employees := by
  unfold add_employee
  by_cases h : db.employees.any (fun x => x.name == name)
  · rwa [if_pos h]
  · rw [if_neg h]
    exact List.mem_append_left _ he

/-- Claim C10 (confirmed): calling `add_employee` with a name that already
exists leaves the employees table — indeed the whole database — unchanged
for any role and PIN arguments (the stored role and PIN are never
overwritten), and consequently re-running the `init_db` seeding a second
time is a no-op on top of the first run. -/
theorem add_employee_duplicate_noop (db : DB) (name role : String) (pin : Option String)
    (h : ∃ e ∈ db.employees, e.name = name) :
    add_employee db name role pin = db ∧
    init_db_seed (init_db_seed db) = init_db_seed db := by
  refine ⟨add_employee_noop_of_mem db name role pin h, ?_⟩
  have hJaco : ∃ e ∈ (init_db_seed db).employees, e.name = "Jaco Kotze" := by
    unfold init_db_seed
    obtain ⟨e, he, hn⟩ := add_employee_mem_name db "Jaco Kotze" "management" (some "1234")
    exact ⟨e, add_employee_mem_mono _ _ _ _ he, hn⟩
  have hCraig : ∃ e ∈ (init_db_seed db).employees, e.name = "Craig Brooks" := by
    unfold init_db_seed
    exact add_employee_mem_name _ "Craig Brooks" "management" (some "5678")
  conv_lhs => rw [init_db_seed]
  rw [add_employee_noop_of_mem _ _ _ _ hJaco,
    add_employee_noop_of_mem _ _ _ _ hCraig]

/-- Witness for claim C10: in the seeded login database, re-adding
`Jaco Kotze` with a different role and PIN changes nothing, and re-running
the seeding is a no-op. -/
theorem add_employee_duplicate_noop_witness :
    (∃ e ∈ exdbLogin.employees, e.name = "Jaco Kotze") ∧
    (add_employee exdbLogin "Jaco Kotze" "site" (some "9999") = exdbLogin ∧
      init_db_seed (init_db_seed exdbLogin) = init_db_seed exdbLogin) :=
  ⟨⟨exEmpJaco, by simp [exdbLogin], rfl⟩,
    add_employee_duplicate_noop exdbLogin "Jaco Kotze" "site" (some "9999")
      ⟨exEmpJaco, by simp [exdbLogin], rfl⟩⟩

/-- Claim C3 (confirmed): a `get_project_tasks` query with
`is_management=False` only ever returns tasks whose `assigned_to` is the
requesting user's id, while with `is_management=True` it returns exactly
the project's non-archived tasks (each row joined with its assignee's
name), with no filter on the assignee. -/
theorem get_project_tasks_role_filter (db : DB) (pid uid : Nat) (mu : Option Nat) :
    (∀ t nm, (t, nm) ∈ get_project_tasks db pid (some uid) false →
      t.assigned_to = some uid) ∧
    (∀ t nm, (t, nm) ∈ get_project_tasks db pid mu true ↔
      (t ∈ db.tasks ∧ t.project_id = pid ∧ t.archived = false ∧
        nm = taskAssigneeName db t)) := by
  constructor
  · intro t nm hmem
    simp only [get_project_tasks, Bool.false_eq_true, if_false, List.mem_map, mem_sortBy,
      List.mem_filter, Prod.mk.injEq] at hmem
    obtain ⟨x, ⟨hx, hsql⟩, hxt, hnm⟩ := hmem
    rw [← hxt]
    cases hass : x.assigned_to with
    | none => rw [hass] at hsql; exact absurd hsql (by simp [sqlEqNat])
    | some a =>
      rw [hass] at hsql
      simp only [sqlEqNat, beq_iff_eq] at hsql
      rw [hsql]
  · intro t nm
    simp only [get_project_tasks, if_true, List.mem_map, mem_sortBy, List.mem_filter,
      Bool.and_eq_true, beq_iff_eq, Bool.not_eq_true', Prod.mk.injEq]
    constructor
    · rintro ⟨x, ⟨hx, hpid, harch⟩, hxt, hnm⟩
      subst hxt
      exact ⟨hx, hpid, harch, hnm.symm⟩
    · rintro ⟨hx, hpid, harch, hnm⟩
      exact ⟨t, ⟨hx, hpid, harch⟩, rfl, hnm.symm⟩

/-- Witness for claim C3: in a database with one task assigned to user 5,
the site-role query for user 5 returns that task, and the theorem applied
to its membership yields `assigned_to = some 5`. -/
theorem get_project_tasks_role_filter_witness :
    (({ exTask1 with assigned_to := some 5 }, some "Piet Pompies") ∈
        get_project_tasks exdb3 1 (some 5) false) ∧
    ({ exTask1 with assigned_to := some 5 } : Task).assigned_to = some 5 := by
  have heval : get_project_tasks exdb3 1 (some 5) false =
      [({ exTask1 with assigned_to := some 5 }, some "Piet Pompies")] := rfl
  have hmem : ({ exTask1 with assigned_to := some 5 }, some "Piet Pompies") ∈
      get_project_tasks exdb3 1 (some 5) false := by
    rw [heval]; exact List.mem_singleton_self _
  exact ⟨hmem, (get_project_tasks_role_filter exdb3 1 5 none).1 _ _ hmem⟩

/-- Membership in the `get_employees` rows is exactly being an active
employee row (sorting does not change membership). -/
theorem mem_get_employees {db : DB} {e : Employee} :
    e ∈ get_employees db ↔ e ∈ db.employees ∧ e.active = true := by
  simp [get_employees, mem_sortBy, List.mem_filter]

/-- `find?` on a list of employees with pairwise-distinct names returns
exactly the unique element carrying the searched name. -/
theorem find_name_eq_some_of_unique {l : List Employee} {user : String} {e : Employee}
    (hp : List.Pairwise (fun a b => a.name ≠ b.name) l) (he : e ∈ l)
    (hn : e.name = user) :
    l.find? (fun x => x.name == user) = some e := by
  induction l with
  | nil => cases he
  | cons a l ih =>
    rcases List.mem_cons.mp he with rfl | hm
    · exact List.find?_cons_of_pos _ (by simp [hn])
    · have hpc := List.pairwise_cons.mp hp
      have hane : (a.name == user) = false := by
        simp only [beq_eq_false_iff_ne, ne_eq]
        intro hcontra
        exact hpc.1 e hm (by rw [hcontra, hn])
      rw [List.find?_cons, hane]
      exact ih hpc.2 hm

/-- Name-distinctness of the employees table carries over to the sorted,
active-filtered rows of `get_employees`. -/
theorem pairwise_names_get_employees (db : DB)
    (h : List.Pairwise (fun a b => a.name ≠ b.name) db.employees) :
    List.Pairwise (fun a b => a.name ≠ b.name) (get_employees db) := by
  have h1 := List.Pairwise.filter (R := fun (a b : Employee) => a.name ≠ b.name)
    (fun e => e.active) h
  have hsymm : ∀ {x y : Employee}, x.name ≠ y.name → y.name ≠ x.name :=
    fun hxy => Ne.symm hxy
  exact (List.Perm.pairwise_iff hsymm
    (perm_sortBy (fun a b => nameLe a.name b.name) _)).mpr h1

/-- Claim C6, counterexample: the login handler requires a non-empty PIN
before it even consults the stored credential, so an active employee whose
stored PIN is the empty string cannot log in with the (exactly matching)
empty PIN — the claim's "succeeds iff the PIN exactly matches and the
employee is active" fails at this input. -/
theorem login_empty_pin_rejected_cex :
    (∃ e ∈ exdb6e.employees, e.active = true ∧ e.name = "Eve" ∧ e.pin = some "") ∧
    login_page exdb6e "Eve" "" = none := by
  constructor
  · exact ⟨{ id := 1, name := "Eve", active := true, role := "site", pin := some "" }, by simp [exdb6e, emptyDB], rfl, rfl, rfl⟩
  · rfl

/-- Claim C6, amended: for a selected (non-empty) employee name and a
non-empty entered PIN string, and a database whose employee names are
distinct (the schema's `UNIQUE` constraint), login succeeds returning the
employee's id and role exactly when some employee row has that name, is
active, and stores exactly that PIN; otherwise no id or role is returned.
An empty entered PIN is rejected before any credential comparison. -/
theorem login_page_success_iff (db : DB) (user pin : String) (eid : Nat) (role : String)
    (hnames : List.Pairwise (fun a b => a.name ≠ b.name) db.employees)
    (hu : user ≠ "") (hp : pin ≠ "") :
    login_page db user pin = some (eid, role) ↔
      ∃ e ∈ db.employees, e.active = true ∧ e.name = user ∧ e.pin = some pin ∧
        e.id = eid ∧ e.role = role := by
  simp only [login_page, get_employee_details]
  rw [if_neg (by simp [hu, hp])]
  constructor
  · intro h
    cases hfind : (get_employees db).find? (fun x => x.name == user) with
    | none => rw [hfind] at h; cases h
    | some e =>
      rw [hfind] at h
      dsimp only at h
      by_cases hpin : (e.pin == some pin) = true
      · rw [if_pos hpin] at h
        have hmem := List.mem_of_find?_eq_some hfind
        have hname := List.find?_some hfind
        obtain ⟨hm, hact⟩ := mem_get_employees.mp hmem
        simp only [Option.some.injEq, Prod.mk.injEq] at h
        exact ⟨e, hm, hact, by simpa using hname, by simpa using hpin, h.1, h.2⟩
      · rw [if_neg hpin] at h; cases h
  · rintro ⟨e, hm, hact, hname, hpin, hid, hrole⟩
    have hfind : (get_employees db).find? (fun x => x.name == user) = some e :=
      find_name_eq_some_of_unique (pairwise_names_get_employees db hnames)
        (mem_get_employees.mpr ⟨hm, hact⟩) hname
    rw [hfind]
    dsimp only
    rw [if_pos (by simp [hpin]), hid, hrole]

/-- Witness for claim C6: the seeded management employee logs in with the
correct PIN and gets back id 1 and role `management`. -/
theorem login_page_success_iff_witness :
    List.Pairwise (fun a b => a.name ≠ b.name) exdbLogin.employees ∧
    login_page exdbLogin "Jaco Kotze" "1234" = some (1, "management") :=
  ⟨by simp [exdbLogin, emptyDB],
    (login_page_success_iff exdbLogin "Jaco Kotze" "1234" 1 "management"
        (by simp [exdbLogin, emptyDB]) (by simp) (by simp)).mpr
      ⟨exEmpJaco, by simp [exdbLogin, emptyDB], rfl, rfl, rfl, rfl, rfl⟩⟩

end CSES
